import Mathlib

/-!
Verification development for the ACEA pipeline orchestrator and its
war-room dashboard. The backend orchestrator core (state machine, retry
controller, hybrid dispatcher, key rotation manager) is specified in the
design document; the dashboard components are embedded from the frontend
TypeScript sources. Definitions come first, theorems after.
-/

namespace ACEA

/-! ## Definitions -/

/-- Modelled from the spec: a Credential for the primary provider, with an
identifier, a cooldown-until timestamp (absent if usable) and a
consecutive-failure count (spec section 3). The backend source holding this
type is not present in the repository snapshot. -/
structure Credential where
  id : Nat
  cooldownUntil : Option Nat
  failures : Nat
deriving DecidableEq, Repr

/-- Modelled from the spec: a Credential is usable when its cooldown-until
timestamp is absent or has passed. -/
def usableB (now : Nat) (c : Credential) : Bool :=
  match c.cooldownUntil with
  | none => true
  | some t => t ≤ now

/-- Modelled from the spec: the selection key of a Credential, its
cooldown-until timestamp (earliest first, absent treated as earliest). -/
def sortKey (c : Credential) : Nat :=
  c.cooldownUntil.getD 0

/-- Modelled from the spec: Credential a is preferred over b when its
cooldown-until timestamp is earlier, with lower consecutive-failure count
breaking ties. -/
def better (a b : Credential) : Bool :=
  sortKey a < sortKey b || (sortKey a == sortKey b && a.failures < b.failures)

/-- Keeps the preferred of the accumulator and the next candidate. -/
def pickBetter (acc : Option Credential) (c : Credential) : Option Credential :=
  match acc with
  | none => some c
  | some b => if better c b then some c else some b

/-- Modelled from the spec: acquire returns the usable Credential with the
earliest cooldown-until timestamp, preferring the lowest failure count among
ties, and none if every Credential is cooling down (spec section 4.4). The
backend source of the Key Rotation Manager is not in the repository
snapshot. -/
def acquire (now : Nat) (pool : List Credential) : Option Credential :=
  (pool.filter (usableB now)).foldl pickBetter none

/-- Modelled from the spec: the decision returned by the Retry Controller
on a retryable-fail Verdict (spec section 4.2). -/
inductive Decision where
  | resumeAt (target : Nat)
  | giveUp
deriving DecidableEq, Repr

/-- Modelled from the spec: the Retry Controller state carried by a Run,
with the iteration counter, the configured maximum iterations and the
per-stage retry penalty counters. -/
structure RCState where
  iteration : Nat
  maxIterations : Nat
  penalties : List (Nat × Nat)
deriving DecidableEq, Repr

/-- Looks up the penalty counter of a target stage, zero when absent. -/
def lookupPenalty (ps : List (Nat × Nat)) (s : Nat) : Nat :=
  match ps.find? (fun p => p.1 == s) with
  | some p => p.2
  | none => 0

/-- Records one more retry into a target stage by shadowing any earlier
entry of that stage with an incremented counter. -/
def bumpPenalty (ps : List (Nat × Nat)) (s : Nat) : List (Nat × Nat) :=
  (s, lookupPenalty ps s + 1) :: ps

/-- Modelled from the spec: on a retryable-fail Verdict the Controller
increments the iteration counter and gives up when the budget is reached;
otherwise, when the target stage has already been retried more than the
oscillation threshold, it also gives up; otherwise it resumes at the
target stage (spec section 4.2; the comparison against the budget follows
the boundary case of spec section 8, where a Run with maximum 1 must fail
on its first retryable-fail). The backend source of the Retry Controller
is not in the repository snapshot. -/
def onRetryableFail (threshold : Nat) (st : RCState) (target : Nat) :
    Decision × RCState :=
  let it := st.iteration + 1
  if st.maxIterations ≤ it then
    (Decision.giveUp, { st with iteration := it })
  else
    let p := lookupPenalty st.penalties target + 1
    if threshold < p then
      (Decision.giveUp,
        { st with iteration := it, penalties := bumpPenalty st.penalties target })
    else
      (Decision.resumeAt target,
        { st with iteration := it, penalties := bumpPenalty st.penalties target })

/-- Feeds a list of retryable-fail resume targets, one per verdict, to the
Controller; returns none as soon as the Controller gives up, and the final
Controller state when it never does. -/
def processFails (threshold : Nat) (st : RCState) : List Nat → Option RCState
  | [] => some st
  | t :: ts =>
    match onRetryableFail threshold st t with
    | (Decision.giveUp, _) => none
    | (Decision.resumeAt _, st2) => processFails threshold st2 ts

/-- Counts the occurrences of a resume target in a verdict sequence. -/
def countTgt (s : Nat) : List Nat → Nat
  | [] => 0
  | t :: ts => (if t = s then 1 else 0) + countTgt s ts

/-- Recognises a verdict sequence whose resume targets strictly alternate
between two stages, starting at the first. -/
def isAltSeq (a b : Nat) : List Nat → Bool
  | [] => true
  | t :: ts => t == a && isAltSeq b a ts

/-- Modelled from the spec: a node of the pipeline graph is a declared
Stage (by its index in graph order) or one of the terminal markers
succeeded and failed (spec section 4.1). -/
inductive Node where
  | stage (i : Nat)
  | succeeded
  | failed
deriving DecidableEq, Repr

/-- True exactly on the two terminal markers. -/
def isTerminal : Node → Bool
  | Node.succeeded => true
  | Node.failed => true
  | Node.stage _ => false

/-- Modelled from the spec: a Run, one end-to-end execution of the pipeline
for a single request, with its identifier, request text, current node,
message log, iteration counter, configured maximum iterations, error list,
generated-file map and per-stage retry penalties (spec section 3). The
backend source holding this type is not in the repository snapshot. -/
structure Run where
  runId : Nat
  request : String
  node : Node
  messages : List String
  iteration : Nat
  maxIterations : Nat
  errors : List String
  files : List (String × String)
  penalties : List (Nat × Nat)
deriving DecidableEq, Repr

/-- Modelled from the spec: the outcome of one Stage execution. -/
inductive Outcome where
  | pass
  | fail
  | retryableFail
deriving DecidableEq, Repr

/-- Modelled from the spec: a Stage Verdict with its outcome, findings and
resume target (spec section 3). -/
structure Verdict where
  outcome : Outcome
  findings : List String
  target : Nat
deriving DecidableEq, Repr

/-- Modelled from the spec: the state delta a Stage returns instead of
mutating the Run in place (spec section 4.5). -/
structure Delta where
  messages : List String
  errors : List String
  files : List (String × String)
deriving DecidableEq, Repr

/-- Inserts one generated file, overwriting the entry of an existing path
and appending a fresh path, so the file map only grows or is overwritten. -/
def insertFile (fs : List (String × String)) (p c : String) :
    List (String × String) :=
  if fs.any (fun q => q.1 == p) then
    fs.map (fun q => if q.1 == p then (p, c) else q)
  else
    fs ++ [(p, c)]

/-- Modelled from the spec: the State Machine applies a state delta by
appending messages and errors and merging generated files. -/
def applyDelta (r : Run) (d : Delta) : Run :=
  { r with
    messages := r.messages ++ d.messages,
    errors := r.errors ++ d.errors,
    files := d.files.foldl (fun fs pc => insertFile fs pc.1 pc.2) r.files }

/-- Modelled from the spec: the outcome reported by one step call. -/
inductive StepOutcome where
  | progressed
  | succeeded
  | failed
deriving DecidableEq, Repr

/-- The terminal StepOutcome stored at a terminal node. -/
def terminalOutcome : Node → StepOutcome
  | Node.succeeded => StepOutcome.succeeded
  | _ => StepOutcome.failed

/-- Modelled from the spec: after a pass the penalty counters of every
stage other than the passing one are reset, since a pass from a different
stage intervenes for each of them (spec section 4.2). -/
def resetOthers (ps : List (Nat × Nat)) (i : Nat) : List (Nat × Nat) :=
  ps.filter (fun p => p.1 == i)

/-- Modelled from the spec: the transition taken after the Stage at index i
returned a delta and a Verdict: advance on pass (reaching succeeded past
the last declared Stage), set failed on fail, and hand retryable-fail to
the Retry Controller (spec section 4.1). -/
def stepStage (graphLen threshold i : Nat) (dv : Delta × Verdict) (r : Run) :
    StepOutcome × Run :=
  match dv.2.outcome with
  | Outcome.pass =>
    if i + 1 < graphLen then
      (StepOutcome.progressed,
        { applyDelta r dv.1 with
          node := Node.stage (i + 1),
          penalties := resetOthers (applyDelta r dv.1).penalties i })
    else
      (StepOutcome.succeeded,
        { applyDelta r dv.1 with
          node := Node.succeeded,
          penalties := resetOthers (applyDelta r dv.1).penalties i })
  | Outcome.fail =>
    (StepOutcome.failed,
      { applyDelta r dv.1 with
        node := Node.failed,
        errors := (applyDelta r dv.1).errors ++ dv.2.findings })
  | Outcome.retryableFail =>
    match onRetryableFail threshold
        ⟨(applyDelta r dv.1).iteration, (applyDelta r dv.1).maxIterations,
         (applyDelta r dv.1).penalties⟩ dv.2.target with
    | (Decision.giveUp, st) =>
      (StepOutcome.failed,
        { applyDelta r dv.1 with
          node := Node.failed,
          iteration := st.iteration, penalties := st.penalties,
          errors := (applyDelta r dv.1).errors ++ dv.2.findings })
    | (Decision.resumeAt t, st) =>
      (StepOutcome.progressed,
        { applyDelta r dv.1 with
          node := Node.stage t,
          iteration := st.iteration, penalties := st.penalties,
          messages := (applyDelta r dv.1).messages ++ dv.2.findings })

/-- Modelled from the spec: one step of the State Machine. A terminal Run
is left unchanged and its stored terminal outcome is returned; otherwise
the Stage named by the current node is executed and its Verdict applied
(spec section 4.1). Stage execution is abstracted as a pure function from
the stage index and the Run snapshot to a delta and a Verdict, per the
Stage contract of spec section 4.5. The backend source of the State Machine
is not in the repository snapshot. -/
def step (graphLen threshold : Nat) (exec : Nat → Run → Delta × Verdict)
    (r : Run) : StepOutcome × Run :=
  match r.node with
  | Node.succeeded => (StepOutcome.succeeded, r)
  | Node.failed => (StepOutcome.failed, r)
  | Node.stage i => stepStage graphLen threshold i (exec i r) r

/-- Iterates step n times, keeping only the Run. -/
def stepN (graphLen threshold : Nat) (exec : Nat → Run → Delta × Verdict) :
    Nat → Run → Run
  | 0, r => r
  | n + 1, r => stepN graphLen threshold exec n (step graphLen threshold exec r).2

/-- The Run invariant maintained by the State Machine: the iteration
counter never exceeds the maximum, and strictly below it while the Run is
still at a declared Stage. -/
def RunInv (r : Run) : Prop :=
  r.iteration ≤ r.maxIterations
  ∧ (isTerminal r.node = false → r.iteration < r.maxIterations)

instance (r : Run) : Decidable (RunInv r) := by
  unfold RunInv
  infer_instance

/-- Modelled from the spec: the response of the primary provider to one
request issued with a given Credential. -/
inductive PrimResult where
  | ok (text : String)
  | rateLimited
  | rejected
deriving DecidableEq, Repr

/-- Modelled from the spec: the result of one complete call of the Hybrid
Dispatcher (spec sections 4.3 and 7). -/
inductive CompleteResult where
  | success (text : String)
  | providerRejected
  | allProvidersExhausted
deriving DecidableEq, Repr

/-- Modelled from the spec: report_success clears the cooldown and resets
the consecutive-failure count (spec section 4.4). -/
def reportSuccess (c : Credential) : Credential :=
  { c with cooldownUntil := none, failures := 0 }

/-- Modelled from the spec: the backoff grows exponentially with the
consecutive-failure count, capped so every Credential eventually becomes
eligible again (spec section 4.4 gives exponential-with-cap as the
example). -/
def backoff (n : Nat) : Nat :=
  min (2 ^ n) 3600

/-- Modelled from the spec: report_failure increments the failure count and
sets the cooldown-until timestamp to now plus the backoff of the new
count (spec section 4.4). -/
def reportFailure (now : Nat) (c : Credential) : Credential :=
  { c with
    failures := c.failures + 1,
    cooldownUntil := some (now + backoff (c.failures + 1)) }

/-- Applies an update to the Credential with the given identifier. -/
def updatePool (pool : List Credential) (i : Nat)
    (f : Credential → Credential) : List Credential :=
  pool.map (fun c => if c.id == i then f c else c)

/-- Issues the single best-effort call to the secondary provider, with its
response given as an oracle; counts one secondary call. -/
def fallbackCall (secondary : Option String) (primCalls : Nat)
    (pool : List Credential) :
    CompleteResult × Nat × Nat × List Credential :=
  match secondary with
  | some t => (CompleteResult.success t, primCalls, 1, pool)
  | none => (CompleteResult.allProvidersExhausted, primCalls, 1, pool)

/-- Modelled from the spec: the rotation loop of the Hybrid Dispatcher.
Each round acquires a Credential, issues the request to the primary
provider, and on a rate-limit error penalises the Credential and retries,
with fuel bounding the rounds at one per Credential in the pool; when no
Credential is acquired it falls back to the secondary provider (spec
section 4.3). The providers are pure oracles; the result carries the
counts of primary and secondary calls issued and the updated pool. The
backend source of the Dispatcher is not in the repository snapshot. -/
def completeAux (now : Nat) (primary : Nat → PrimResult)
    (secondary : Option String) :
    Nat → List Credential → Nat → CompleteResult × Nat × Nat × List Credential
  | 0, pool, primCalls => fallbackCall secondary primCalls pool
  | fuel + 1, pool, primCalls =>
    match acquire now pool with
    | none => fallbackCall secondary primCalls pool
    | some c =>
      match primary c.id with
      | PrimResult.ok t =>
        (CompleteResult.success t, primCalls + 1, 0,
          updatePool pool c.id reportSuccess)
      | PrimResult.rejected =>
        (CompleteResult.providerRejected, primCalls + 1, 0, pool)
      | PrimResult.rateLimited =>
        completeAux now primary secondary fuel
          (updatePool pool c.id (reportFailure now)) (primCalls + 1)

/-- Modelled from the spec: the complete operation of the Hybrid
Dispatcher, starting the rotation loop with fuel equal to the pool size
and zero calls issued. -/
def complete (now : Nat) (pool : List Credential)
    (primary : Nat → PrimResult) (secondary : Option String) :
    CompleteResult × Nat × Nat × List Credential :=
  completeAux now primary secondary pool.length pool 0

/-- Modelled from the spec: the error rejected synchronously to the caller
when the request is invalid (spec section 7). -/
inductive StartError where
  | invalidRequest
deriving DecidableEq, Repr

/-- ASCII whitespace, the characters removed by trim. -/
def isWS (ch : Char) : Bool :=
  ch == ' ' || ch == '\t' || ch == '\n' || ch == '\r'

/-- True when the string trims to the empty string, that is, every
character is whitespace; this is the emptiness test both start and
startMission apply to their input. -/
def blankB (s : String) : Bool :=
  s.data.all isWS

/-- The fresh Run created for an accepted request: iteration 0, at the
first declared Stage, with empty logs, errors, files and penalties. -/
def mkRun (nextId maxIt : Nat) (request : String) : Run :=
  ⟨nextId, request, Node.stage 0, [], 0, maxIt, [], [], []⟩

/-- Modelled from the spec: start fails with InvalidRequest on empty or
oversized input, before any Run is created, and otherwise creates a Run
with iteration 0 at the first declared Stage and returns its identifier
(spec sections 4.1 and 7). The size limit is a configuration value read
at process start, taken here as a parameter since the spec names no
concrete bound. The backend source of start is not in the repository
snapshot. -/
def startRun (nextId maxIt maxLen : Nat) (request : String) :
    Except StartError (Nat × Run) :=
  if blankB request then Except.error StartError.invalidRequest
  else if maxLen < request.length then Except.error StartError.invalidRequest
  else Except.ok (nextId, mkRun nextId maxIt request)

/-- The dashboard state touched by startMission in
frontend/src/app/war-room/page.tsx: the log list, the processing flag and
the IDE visibility flag. -/
structure WarRoomState where
  logs : List String
  isProcessing : Bool
  showIDE : Bool
deriving DecidableEq, Repr

/-- An event emitted to the backend over the socket. -/
inductive SocketEvent where
  | startMissionEvt (prompt : String)
deriving DecidableEq, Repr

/-- Embeds startMission of frontend/src/app/war-room/page.tsx lines
129-138: a prompt that trims to empty returns immediately; otherwise the
processing flag is set, the logs are cleared and replaced by the
initialisation entry, the IDE is hidden and one start_mission event is
emitted. -/
def startMission (st : WarRoomState) (prompt : String) :
    WarRoomState × List SocketEvent :=
  if blankB prompt then (st, [])
  else
    ({ logs := ["Initializing Autonomous Sequence..."],
       isProcessing := true,
       showIDE := false },
     [SocketEvent.startMissionEvt prompt])

/-- Embeds addLog of frontend/src/app/war-room/page.tsx lines 119-127: the
new log list keeps the last 49 previous entries, in order, and appends the
new entry; slice(-49) takes the suffix starting at index length minus 49,
or the whole list when shorter. -/
def addLog {α : Type} (prev : List α) (e : α) : List α :=
  prev.drop (prev.length - 49) ++ [e]

/-- Embeds the file_generated handler of
frontend/src/app/war-room/page.tsx lines 79-88: the files map is replaced
by a copy holding the event content at the event path, object-spread
semantics leaving every other key unchanged. -/
def fileGenerated (files : String → Option String) (path content : String) :
    String → Option String :=
  fun q => if q = path then some content else files q

/-- Embeds the back-button target of
frontend/src/components/war-room/TimeTravel.tsx line 37:
Math.max(0, currentIdx - 1). -/
def backTarget (currentIdx : Int) : Int :=
  max 0 (currentIdx - 1)

/-- Embeds the forward-button target of
frontend/src/components/war-room/TimeTravel.tsx line 44:
Math.min(states.length - 1, currentIdx + 1). -/
def forwardTarget (numStates currentIdx : Int) : Int :=
  min (numStates - 1) (currentIdx + 1)

/-- Embeds the empty-state guard of
frontend/src/components/war-room/TimeTravel.tsx line 11: with no states the
component renders nothing, otherwise it renders with the given states. -/
def renderTimeTravel {α : Type} (states : List α) : Option (List α) :=
  if states.length = 0 then none else some states

/-- Embeds BOUNDS_PADDING of
frontend/src/components/war-room/AgentStage.tsx line 26. -/
def BOUNDS_PADDING : ℚ := 10

/-- One agent of the AgentStage physics simulation: position and
velocity components, in percent coordinates. -/
structure AgentPos where
  x : ℚ
  y : ℚ
  vx : ℚ
  vy : ℚ
deriving DecidableEq, Repr

/-- Embeds the first boundary clamp of AgentStage.tsx line 115/117: a
coordinate below the padding is reset to the padding and its velocity
component inverted. -/
def bounceLow (pos v : ℚ) : ℚ × ℚ :=
  if pos < BOUNDS_PADDING then (BOUNDS_PADDING, -v) else (pos, v)

/-- Embeds the second boundary clamp of AgentStage.tsx line 116/118: a
coordinate above 100 minus the padding is reset to that bound and its
velocity component inverted. -/
def bounceHigh (pos v : ℚ) : ℚ × ℚ :=
  if pos > 100 - BOUNDS_PADDING then (100 - BOUNDS_PADDING, -v) else (pos, v)

/-- The two clamps applied in source order to one axis. -/
def bounceAxis (pos v : ℚ) : ℚ × ℚ :=
  bounceHigh (bounceLow pos v).1 (bounceLow pos v).2

/-- Embeds steps 3 and 4 of the AgentStage.tsx physics loop, lines
110-120: the position advances by the velocity (already wander-adjusted,
speed-capped and repulsion-adjusted, which this step receives as the
current velocity), then each axis is clamped with a bounce. -/
def physStep (a : AgentPos) : AgentPos :=
  ⟨(bounceAxis (a.x + a.vx) a.vx).1, (bounceAxis (a.y + a.vy) a.vy).1,
   (bounceAxis (a.x + a.vx) a.vx).2, (bounceAxis (a.y + a.vy) a.vy).2⟩

/-- Embeds the initial coordinates of AgentStage.tsx lines 35-36:
20 + random * 60 on each axis, with random drawn from [0, 1). -/
def initCoord (r : ℚ) : ℚ :=
  20 + r * 60

/-! ## Theorems -/

theorem pickBetter_self (c : Credential) : pickBetter (some c) c = some c := by
  simp [pickBetter]

theorem foldl_pickBetter_const (c : Credential) :
    ∀ l : List Credential, (∀ d ∈ l, d = c) →
      l.foldl pickBetter (some c) = some c := by
  intro l
  induction l with
  | nil => intro _; rfl
  | cons d t ih =>
    intro h
    have hd : d = c := h d (List.mem_cons_self d t)
    subst hd
    simp only [List.foldl_cons, pickBetter_self]
    exact ih (fun e he => h e (List.mem_cons_of_mem d he))

theorem foldl_pickBetter_none (c : Credential) :
    ∀ l : List Credential, (∀ d ∈ l, d = c) → l ≠ [] →
      l.foldl pickBetter none = some c := by
  intro l
  cases l with
  | nil => intro _ h; exact absurd rfl h
  | cons d t =>
    intro h _
    have hd : d = c := h d (List.mem_cons_self d t)
    subst hd
    simp only [List.foldl_cons, pickBetter]
    exact foldl_pickBetter_const d t (fun e he => h e (List.mem_cons_of_mem d he))

theorem filter_eq_nil_of_all_false (now : Nat) :
    ∀ pool : List Credential, (∀ d ∈ pool, usableB now d = false) →
      pool.filter (usableB now) = [] := by
  intro pool
  induction pool with
  | nil => intro _; rfl
  | cons d t ih =>
    intro h
    have hd := h d (List.mem_cons_self d t)
    simp only [List.filter_cons, hd, Bool.false_eq_true, if_false]
    exact ih (fun e he => h e (List.mem_cons_of_mem d he))

/-- Claim C3: with every Credential of the pool in cooldown, acquire returns
none; and when exactly one Credential of the pool is usable, acquire returns
exactly that Credential. -/
theorem acquire_exhausted_and_unique (now : Nat) (pool : List Credential)
    (c : Credential) :
    ((∀ d ∈ pool, usableB now d = false) → acquire now pool = none)
    ∧ (c ∈ pool → usableB now c = true →
        (∀ d ∈ pool, usableB now d = true → d = c) →
        acquire now pool = some c) := by
  constructor
  · intro h
    unfold acquire
    rw [filter_eq_nil_of_all_false now pool h]
    rfl
  · intro hc hu huniq
    unfold acquire
    have hmem : c ∈ pool.filter (usableB now) := List.mem_filter.mpr ⟨hc, hu⟩
    have hall : ∀ d ∈ pool.filter (usableB now), d = c := by
      intro d hd
      have := List.mem_filter.mp hd
      exact huniq d this.1 this.2
    have hne : pool.filter (usableB now) ≠ [] := by
      intro hnil
      rw [hnil] at hmem
      exact (List.not_mem_nil c) hmem
    exact foldl_pickBetter_none c _ hall hne

/-- Witness for C3 at a concrete pool: both credentials cooling at time 10
yields none, and with one expired cooldown acquire returns exactly it. -/
theorem acquire_exhausted_and_unique_witness :
    acquire 10 [⟨0, some 20, 0⟩, ⟨1, some 30, 2⟩] = none
    ∧ acquire 10 [⟨0, some 20, 0⟩, ⟨1, some 5, 2⟩] = some ⟨1, some 5, 2⟩ := by
  constructor
  · exact (acquire_exhausted_and_unique 10 [⟨0, some 20, 0⟩, ⟨1, some 30, 2⟩]
      ⟨0, some 20, 0⟩).1 (by decide)
  · exact (acquire_exhausted_and_unique 10 [⟨0, some 20, 0⟩, ⟨1, some 5, 2⟩]
      ⟨1, some 5, 2⟩).2 (by decide) (by decide) (by decide)

theorem lookupPenalty_bump_self (ps : List (Nat × Nat)) (s : Nat) :
    lookupPenalty (bumpPenalty ps s) s = lookupPenalty ps s + 1 := by
  simp [lookupPenalty, bumpPenalty, List.find?]

theorem lookupPenalty_bump_other (ps : List (Nat × Nat)) (s t : Nat)
    (h : s ≠ t) : lookupPenalty (bumpPenalty ps t) s = lookupPenalty ps s := by
  have hb : (t == s) = false := by
    exact beq_false_of_ne (fun he => h he.symm)
  simp [lookupPenalty, bumpPenalty, List.find?, hb]

theorem countTgt_cons (s t : Nat) (ts : List Nat) :
    countTgt s (t :: ts) = (if t = s then 1 else 0) + countTgt s ts := rfl

theorem processFails_givesUp (threshold : Nat) :
    ∀ (ts : List Nat) (st : RCState) (s : Nat),
      threshold < lookupPenalty st.penalties s + countTgt s ts →
      1 ≤ countTgt s ts →
      st.iteration + ts.length < st.maxIterations →
      processFails threshold st ts = none := by
  intro ts
  induction ts with
  | nil =>
    intro st s _ hone _
    exact absurd hone (by simp [countTgt])
  | cons t ts ih =>
    intro st s hcnt hone hbudget
    have hlen : st.iteration + 1 + ts.length < st.maxIterations := by
      simp only [List.length_cons] at hbudget
      omega
    unfold processFails onRetryableFail
    have hb : ¬ st.maxIterations ≤ st.iteration + 1 := by omega
    simp only [hb, if_false]
    by_cases hp : threshold < lookupPenalty st.penalties t + 1
    · simp only [hp, if_true]
    · simp only [hp, if_false]
      rw [countTgt_cons] at hcnt
      by_cases hst : t = s
      · rw [if_pos hst] at hcnt
        rw [hst] at hp
        refine ih ⟨st.iteration + 1, st.maxIterations,
          bumpPenalty st.penalties t⟩ s ?_ ?_ ?_
        · show threshold < lookupPenalty (bumpPenalty st.penalties t) s + countTgt s ts
          rw [← hst, lookupPenalty_bump_self, hst]
          omega
        · omega
        · show st.iteration + 1 + ts.length < st.maxIterations
          exact hlen
      · rw [if_neg hst] at hcnt
        rw [countTgt_cons, if_neg hst] at hone
        refine ih ⟨st.iteration + 1, st.maxIterations,
          bumpPenalty st.penalties t⟩ s ?_ ?_ ?_
        · show threshold < lookupPenalty (bumpPenalty st.penalties t) s + countTgt s ts
          rw [lookupPenalty_bump_other _ _ _ (fun he => hst he.symm)]
          omega
        · omega
        · show st.iteration + 1 + ts.length < st.maxIterations
          exact hlen

/-- Claim C5: a sequence of retryable-fail verdicts whose resume targets
alternate between stages a and b, with no intervening pass, in which either
single target stage is retried more than the threshold, makes the Retry
Controller give up even while the iteration count stays strictly below the
maximum iterations. -/
theorem oscillation_guard (threshold a b : Nat) (ts : List Nat) (st : RCState)
    (_halt : isAltSeq a b ts = true)
    (hfresh : st.penalties = [])
    (hcount : threshold < countTgt a ts ∨ threshold < countTgt b ts)
    (hbudget : st.iteration + ts.length < st.maxIterations) :
    processFails threshold st ts = none := by
  have hzero : ∀ s : Nat, lookupPenalty st.penalties s = 0 := by
    intro s
    rw [hfresh]
    rfl
  cases hcount with
  | inl h =>
    exact processFails_givesUp threshold ts st a
      (by rw [hzero]; omega) (by omega) hbudget
  | inr h =>
    exact processFails_givesUp threshold ts st b
      (by rw [hzero]; omega) (by omega) hbudget

/-- Witness for C5: eight verdicts alternating between stages 1 and 2 with
threshold 3 and budget 20 make the Controller give up. -/
theorem oscillation_guard_witness :
    processFails 3 ⟨0, 20, []⟩ [1, 2, 1, 2, 1, 2, 1, 2] = none :=
  oscillation_guard 3 1 2 [1, 2, 1, 2, 1, 2, 1, 2] ⟨0, 20, []⟩
    (by decide) rfl (Or.inl (by decide)) (by decide)

theorem onRetryableFail_state (threshold : Nat) (st : RCState) (t : Nat)
    (h : st.iteration < st.maxIterations) :
    st.iteration ≤ (onRetryableFail threshold st t).2.iteration
    ∧ (onRetryableFail threshold st t).2.iteration ≤ st.maxIterations
    ∧ (onRetryableFail threshold st t).2.maxIterations = st.maxIterations
    ∧ (∀ t2, (onRetryableFail threshold st t).1 = Decision.resumeAt t2 →
        (onRetryableFail threshold st t).2.iteration < st.maxIterations) := by
  unfold onRetryableFail
  by_cases hb : st.maxIterations ≤ st.iteration + 1
  · simp only [hb, if_true]
    refine ⟨by omega, by omega, by trivial, ?_⟩
    intro t2 hres
    exact absurd hres (by simp)
  · simp only [hb, if_false]
    by_cases hp : threshold < lookupPenalty st.penalties t + 1
    · simp only [hp, if_true]
      refine ⟨by omega, by omega, by trivial, ?_⟩
      intro t2 hres
      exact absurd hres (by simp)
    · simp only [hp, if_false]
      exact ⟨by omega, by omega, by trivial, fun t2 _ => by omega⟩

theorem step_eq_of_succeeded (graphLen threshold : Nat)
    (exec : Nat → Run → Delta × Verdict) (r : Run)
    (h : r.node = Node.succeeded) :
    step graphLen threshold exec r = (StepOutcome.succeeded, r) := by
  unfold step
  rw [h]

theorem step_eq_of_failed (graphLen threshold : Nat)
    (exec : Nat → Run → Delta × Verdict) (r : Run)
    (h : r.node = Node.failed) :
    step graphLen threshold exec r = (StepOutcome.failed, r) := by
  unfold step
  rw [h]

theorem step_eq_of_stage (graphLen threshold : Nat)
    (exec : Nat → Run → Delta × Verdict) (r : Run) (i : Nat)
    (h : r.node = Node.stage i) :
    step graphLen threshold exec r
      = stepStage graphLen threshold i (exec i r) r := by
  unfold step
  rw [h]

theorem stepStage_preserves (graphLen threshold i : Nat)
    (dv : Delta × Verdict) (r : Run)
    (hlt : r.iteration < r.maxIterations) :
    RunInv (stepStage graphLen threshold i dv r).2
    ∧ r.iteration ≤ (stepStage graphLen threshold i dv r).2.iteration
    ∧ (stepStage graphLen threshold i dv r).2.maxIterations
        = r.maxIterations := by
  unfold stepStage
  cases ho : dv.2.outcome with
  | pass =>
    by_cases hg : i + 1 < graphLen
    · simp only [hg, if_true]
      exact ⟨⟨le_of_lt hlt, fun _ => hlt⟩, le_refl _, rfl⟩
    · simp only [hg, if_false]
      exact ⟨⟨le_of_lt hlt, fun hf => absurd hf (by simp [isTerminal])⟩,
        le_refl _, rfl⟩
  | fail =>
    exact ⟨⟨le_of_lt hlt, fun hf => absurd hf (by simp [isTerminal])⟩,
      le_refl _, rfl⟩
  | retryableFail =>
    have hrc := onRetryableFail_state threshold
      ⟨r.iteration, r.maxIterations, (applyDelta r dv.1).penalties⟩
      dv.2.target hlt
    cases hd : onRetryableFail threshold
        ⟨r.iteration, r.maxIterations, (applyDelta r dv.1).penalties⟩
        dv.2.target with
    | mk dec st =>
      rw [hd] at hrc
      cases dec with
      | giveUp =>
        rw [show (⟨(applyDelta r dv.1).iteration,
              (applyDelta r dv.1).maxIterations,
              (applyDelta r dv.1).penalties⟩ : RCState)
            = ⟨r.iteration, r.maxIterations, (applyDelta r dv.1).penalties⟩
          from rfl, hd]
        exact ⟨⟨hrc.2.1, fun hf => absurd hf (by simp [isTerminal])⟩,
          hrc.1, rfl⟩
      | resumeAt t =>
        rw [show (⟨(applyDelta r dv.1).iteration,
              (applyDelta r dv.1).maxIterations,
              (applyDelta r dv.1).penalties⟩ : RCState)
            = ⟨r.iteration, r.maxIterations, (applyDelta r dv.1).penalties⟩
          from rfl, hd]
        have hres := hrc.2.2.2 t rfl
        exact ⟨⟨le_of_lt hres, fun _ => hres⟩, hrc.1, rfl⟩

theorem step_preserves (graphLen threshold : Nat)
    (exec : Nat → Run → Delta × Verdict) (r : Run) (h : RunInv r) :
    RunInv (step graphLen threshold exec r).2
    ∧ r.iteration ≤ (step graphLen threshold exec r).2.iteration
    ∧ (step graphLen threshold exec r).2.maxIterations = r.maxIterations := by
  obtain ⟨hle, hstage⟩ := h
  cases hn : r.node with
  | succeeded =>
    rw [step_eq_of_succeeded graphLen threshold exec r hn]
    exact ⟨⟨hle, hstage⟩, le_refl _, rfl⟩
  | failed =>
    rw [step_eq_of_failed graphLen threshold exec r hn]
    exact ⟨⟨hle, hstage⟩, le_refl _, rfl⟩
  | stage i =>
    rw [step_eq_of_stage graphLen threshold exec r i hn]
    exact stepStage_preserves graphLen threshold i (exec i r) r
      (hstage (by rw [hn]; rfl))

/-- Claim C1: along every execution of a Run satisfying the Run invariant,
the configured maximum iterations is preserved, the iteration counter is
monotonically non-decreasing across steps and never exceeds the maximum;
and the Run created by start satisfies the invariant whenever the
configured budget is at least one. -/
theorem iteration_monotone_bounded (graphLen threshold : Nat)
    (exec : Nat → Run → Delta × Verdict) (r : Run) (n : Nat)
    (nextId maxIt : Nat) (request : String)
    (h : RunInv r) (hmax : 1 ≤ maxIt) :
    RunInv (stepN graphLen threshold exec n r)
    ∧ (stepN graphLen threshold exec n r).maxIterations = r.maxIterations
    ∧ (stepN graphLen threshold exec n r).iteration
        ≤ (stepN graphLen threshold exec n r).maxIterations
    ∧ (stepN graphLen threshold exec n r).iteration
        ≤ (stepN graphLen threshold exec (n + 1) r).iteration
    ∧ RunInv (mkRun nextId maxIt request) := by
  refine ?_
  have hmk : RunInv (mkRun nextId maxIt request) :=
    ⟨Nat.zero_le _, fun _ => hmax⟩
  induction n generalizing r with
  | zero =>
    have hs := step_preserves graphLen threshold exec r h
    exact ⟨h, rfl, h.1, hs.2.1, hmk⟩
  | succ n ih =>
    have hs := step_preserves graphLen threshold exec r h
    have hrec := ih (step graphLen threshold exec r).2 hs.1
    exact ⟨hrec.1, hrec.2.1.trans hs.2.2, hrec.2.2.1, hrec.2.2.2.1, hmk⟩

/-- Witness for C1 at a concrete Run, stage behaviour and step count. -/
theorem iteration_monotone_bounded_witness :
    RunInv (stepN 4 3 (fun _ _ => (⟨[], [], []⟩, ⟨Outcome.retryableFail, ["f"], 0⟩)) 2
      ⟨7, "build", Node.stage 0, [], 0, 3, [], [], []⟩)
    ∧ (stepN 4 3 (fun _ _ => (⟨[], [], []⟩, ⟨Outcome.retryableFail, ["f"], 0⟩)) 2
        ⟨7, "build", Node.stage 0, [], 0, 3, [], [], []⟩).maxIterations
      = (⟨7, "build", Node.stage 0, [], 0, 3, [], [], []⟩ : Run).maxIterations
    ∧ (stepN 4 3 (fun _ _ => (⟨[], [], []⟩, ⟨Outcome.retryableFail, ["f"], 0⟩)) 2
        ⟨7, "build", Node.stage 0, [], 0, 3, [], [], []⟩).iteration
      ≤ (stepN 4 3 (fun _ _ => (⟨[], [], []⟩, ⟨Outcome.retryableFail, ["f"], 0⟩)) 2
        ⟨7, "build", Node.stage 0, [], 0, 3, [], [], []⟩).maxIterations
    ∧ (stepN 4 3 (fun _ _ => (⟨[], [], []⟩, ⟨Outcome.retryableFail, ["f"], 0⟩)) 2
        ⟨7, "build", Node.stage 0, [], 0, 3, [], [], []⟩).iteration
      ≤ (stepN 4 3 (fun _ _ => (⟨[], [], []⟩, ⟨Outcome.retryableFail, ["f"], 0⟩)) 3
        ⟨7, "build", Node.stage 0, [], 0, 3, [], [], []⟩).iteration
    ∧ RunInv (mkRun 1 3 "build a counter page") :=
  iteration_monotone_bounded 4 3
    (fun _ _ => (⟨[], [], []⟩, ⟨Outcome.retryableFail, ["f"], 0⟩))
    ⟨7, "build", Node.stage 0, [], 0, 3, [], [], []⟩ 2
    1 3 "build a counter page" (by decide) (by decide)

/-- Claim C2: step on a Run whose current node is a terminal marker returns
the stored terminal outcome, leaves the Run unchanged, and composing step
with itself on a terminal Run equals a single step. -/
theorem step_terminal_idempotent (graphLen threshold : Nat)
    (exec : Nat → Run → Delta × Verdict) (r : Run)
    (h : isTerminal r.node = true) :
    (step graphLen threshold exec r).2 = r
    ∧ (step graphLen threshold exec r).1 = terminalOutcome r.node
    ∧ step graphLen threshold exec (step graphLen threshold exec r).2
        = step graphLen threshold exec r := by
  cases hn : r.node with
  | stage i => rw [hn] at h; exact absurd h (by simp [isTerminal])
  | succeeded =>
    have h1 : step graphLen threshold exec r = (StepOutcome.succeeded, r) := by
      unfold step
      rw [hn]
    rw [h1]
    exact ⟨rfl, rfl, h1⟩
  | failed =>
    have h1 : step graphLen threshold exec r = (StepOutcome.failed, r) := by
      unfold step
      rw [hn]
    rw [h1]
    exact ⟨rfl, rfl, h1⟩

/-- Witness for C2 at a concrete terminal Run. -/
theorem step_terminal_idempotent_witness :
    (step 4 3 (fun _ _ => (⟨[], [], []⟩, ⟨Outcome.pass, [], 0⟩))
      ⟨7, "build", Node.failed, [], 2, 3, ["e"], [], []⟩).2
      = ⟨7, "build", Node.failed, [], 2, 3, ["e"], [], []⟩
    ∧ (step 4 3 (fun _ _ => (⟨[], [], []⟩, ⟨Outcome.pass, [], 0⟩))
      ⟨7, "build", Node.failed, [], 2, 3, ["e"], [], []⟩).1
      = terminalOutcome (Node.failed)
    ∧ step 4 3 (fun _ _ => (⟨[], [], []⟩, ⟨Outcome.pass, [], 0⟩))
        (step 4 3 (fun _ _ => (⟨[], [], []⟩, ⟨Outcome.pass, [], 0⟩))
          ⟨7, "build", Node.failed, [], 2, 3, ["e"], [], []⟩).2
      = step 4 3 (fun _ _ => (⟨[], [], []⟩, ⟨Outcome.pass, [], 0⟩))
          ⟨7, "build", Node.failed, [], 2, 3, ["e"], [], []⟩ :=
  step_terminal_idempotent 4 3 (fun _ _ => (⟨[], [], []⟩, ⟨Outcome.pass, [], 0⟩))
    ⟨7, "build", Node.failed, [], 2, 3, ["e"], [], []⟩ (by decide)

/-- Claim C4: when acquire returns none, the complete operation of the
Hybrid Dispatcher issues exactly one call to the secondary provider and
zero calls to the primary provider. -/
theorem complete_fallback_counts (now : Nat) (pool : List Credential)
    (primary : Nat → PrimResult) (secondary : Option String)
    (h : acquire now pool = none) :
    (complete now pool primary secondary).2.1 = 0
    ∧ (complete now pool primary secondary).2.2.1 = 1 := by
  unfold complete
  cases pool with
  | nil =>
    cases secondary with
    | none => exact ⟨rfl, rfl⟩
    | some t => exact ⟨rfl, rfl⟩
  | cons c cs =>
    show ((completeAux now primary secondary (cs.length + 1) (c :: cs) 0).2.1 = 0
      ∧ (completeAux now primary secondary (cs.length + 1) (c :: cs) 0).2.2.1 = 1)
    unfold completeAux
    rw [h]
    cases secondary with
    | none => exact ⟨rfl, rfl⟩
    | some t => exact ⟨rfl, rfl⟩

/-- Witness for C4 at a concrete pool whose only Credential is cooling. -/
theorem complete_fallback_counts_witness :
    (complete 5 [⟨0, some 10, 0⟩] (fun _ => PrimResult.rejected)
      (some "text")).2.1 = 0
    ∧ (complete 5 [⟨0, some 10, 0⟩] (fun _ => PrimResult.rejected)
      (some "text")).2.2.1 = 1 :=
  complete_fallback_counts 5 [⟨0, some 10, 0⟩] (fun _ => PrimResult.rejected)
    (some "text") (by decide)

/-- Counterexample for claim C7 as stated: a request that is non-empty
(not even whitespace-only) but longer than the configured size limit is
rejected with InvalidRequest rather than creating a Run, so not every
non-empty request creates a Run. -/
theorem start_oversized_rejected_cex :
    blankB "build a counter page" = false
    ∧ startRun 1 3 5 "build a counter page"
        = Except.error StartError.invalidRequest := by
  constructor
  · decide
  · rfl

/-- Claim C7 (amended): an empty or whitespace-only request, and an
oversized request, are rejected with InvalidRequest before any Run is
created; a request with visible content within the configured size limit
yields a Run with iteration 0 at the first declared Stage under its
returned identifier; and in the frontend startMission with an empty or
whitespace-only prompt emits no start_mission event and leaves the state
unchanged. -/
theorem start_validates (st : WarRoomState) (prompt : String)
    (nextId maxIt maxLen : Nat) (request : String) :
    (blankB request = true →
      startRun nextId maxIt maxLen request
        = Except.error StartError.invalidRequest)
    ∧ (maxLen < request.length →
      startRun nextId maxIt maxLen request
        = Except.error StartError.invalidRequest)
    ∧ (blankB request = false → request.length ≤ maxLen →
      startRun nextId maxIt maxLen request
        = Except.ok (nextId, mkRun nextId maxIt request)
      ∧ (mkRun nextId maxIt request).iteration = 0
      ∧ (mkRun nextId maxIt request).node = Node.stage 0
      ∧ (mkRun nextId maxIt request).runId = nextId)
    ∧ (blankB prompt = true → startMission st prompt = (st, [])) := by
  refine ⟨?_, ?_, ?_, ?_⟩
  · intro h
    unfold startRun
    rw [h]
    rfl
  · intro h
    unfold startRun
    by_cases hb : blankB request = true
    · rw [if_pos hb]
    · rw [if_neg hb, if_pos h]
  · intro hb hlen
    unfold startRun
    rw [hb]
    rw [if_neg (by simp), if_neg (by omega)]
    exact ⟨rfl, rfl, rfl, rfl⟩
  · intro h
    unfold startMission
    rw [h]
    rfl

/-- Witness for C7 on a whitespace-only request, an oversized request, a
visible in-bounds request, and a whitespace-only dashboard prompt. -/
theorem start_validates_witness :
    startRun 1 3 100 " " = Except.error StartError.invalidRequest
    ∧ startRun 1 3 5 "this prompt is too long"
        = Except.error StartError.invalidRequest
    ∧ startRun 1 3 100 "build a counter page"
        = Except.ok (1, mkRun 1 3 "build a counter page")
    ∧ startMission ⟨["old"], false, true⟩ " " = (⟨["old"], false, true⟩, []) := by
  refine ⟨?_, ?_, ?_, ?_⟩
  · exact (start_validates ⟨["old"], false, true⟩ " " 1 3 100 " ").1 (by decide)
  · exact (start_validates ⟨["old"], false, true⟩ " " 1 3 5
      "this prompt is too long").2.1 (by decide)
  · exact ((start_validates ⟨["old"], false, true⟩ " " 1 3 100
      "build a counter page").2.2.1 (by decide) (by decide)).1
  · exact (start_validates ⟨["old"], false, true⟩ " " 1 3 100 " ").2.2.2 (by decide)

/-- Claim C8: addLog yields at most 50 entries, ends with the new entry,
and the entries before it are exactly the most recent at most 49 prior
entries in their original order (a suffix of the prior list). -/
theorem addLog_bounded_ordered {α : Type} (prev : List α) (e : α) :
    (addLog prev e).length ≤ 50
    ∧ (addLog prev e).getLast? = some e
    ∧ (addLog prev e).dropLast = prev.drop (prev.length - 49)
    ∧ List.IsSuffix ((addLog prev e).dropLast) prev
    ∧ (addLog prev e).dropLast.length = min 49 prev.length := by
  refine ⟨?_, ?_, ?_, ?_, ?_⟩
  · show (prev.drop (prev.length - 49) ++ [e]).length ≤ 50
    rw [List.length_append, List.length_drop]
    simp only [List.length_singleton]
    omega
  · exact List.getLast?_concat _
  · exact List.dropLast_concat
  · rw [show (addLog prev e).dropLast = prev.drop (prev.length - 49) from
      List.dropLast_concat]
    exact List.drop_suffix _ _
  · rw [show (addLog prev e).dropLast = prev.drop (prev.length - 49) from
      List.dropLast_concat]
    rw [List.length_drop]
    omega

/-- Claim C6: the file_generated handler maps the event path to the event
content, leaves every other path unchanged, and a later event for the
same path overwrites the earlier content. -/
theorem file_generated_frame (files : String → Option String)
    (p c q c2 : String) :
    fileGenerated files p c p = some c
    ∧ (q ≠ p → fileGenerated files p c q = files q)
    ∧ fileGenerated (fileGenerated files p c) p c2 p = some c2 := by
  refine ⟨?_, ?_, ?_⟩
  · simp [fileGenerated]
  · intro h
    simp [fileGenerated, h]
  · simp [fileGenerated]

/-- Witness for C6 at concrete paths: an event for path a leaves path b
bound as before. -/
theorem file_generated_frame_witness :
    fileGenerated (fun _ => none) "a" "x" "b" = none :=
  (file_generated_frame (fun _ => none) "a" "x" "b" "y").2.1 (by decide)

/-- Claim C9: with a non-empty states list and an in-bounds current index,
the back and forward controls request only indices clamped into
[0, states.length - 1], and with an empty states list the component
renders nothing. -/
theorem timeTravel_safe {α : Type} (states : List α) (currentIdx : Int)
    (h1 : 0 ≤ currentIdx) (h2 : currentIdx < (states.length : Int)) :
    (0 ≤ backTarget currentIdx
      ∧ backTarget currentIdx ≤ (states.length : Int) - 1)
    ∧ (0 ≤ forwardTarget (states.length : Int) currentIdx
      ∧ forwardTarget (states.length : Int) currentIdx
          ≤ (states.length : Int) - 1)
    ∧ renderTimeTravel ([] : List α) = none := by
  unfold backTarget forwardTarget renderTimeTravel
  refine ⟨⟨?_, ?_⟩, ⟨?_, ?_⟩, rfl⟩ <;> omega

/-- Witness for C9 at a concrete three-state list and index 1. -/
theorem timeTravel_safe_witness :
    (0 ≤ backTarget 1 ∧ backTarget 1 ≤ (([0, 1, 2] : List Nat).length : Int) - 1)
    ∧ (0 ≤ forwardTarget (([0, 1, 2] : List Nat).length : Int) 1
      ∧ forwardTarget (([0, 1, 2] : List Nat).length : Int) 1
          ≤ (([0, 1, 2] : List Nat).length : Int) - 1)
    ∧ renderTimeTravel ([] : List Nat) = none :=
  timeTravel_safe [0, 1, 2] 1 (by decide) (by decide)

theorem bounceAxis_bounds (pos v : ℚ) :
    10 ≤ (bounceAxis pos v).1 ∧ (bounceAxis pos v).1 ≤ 90 := by
  unfold bounceAxis bounceHigh bounceLow BOUNDS_PADDING
  split_ifs <;> constructor <;> norm_num <;> linarith

/-- Claim C10: after every physics step both coordinates of every agent
lie within [10, 90]; initial coordinates start inside that box; and the
clamp that restores a coordinate leaving the box inverts its velocity
component. -/
theorem agentStage_bounds (a : AgentPos) (r : ℚ) (h0 : 0 ≤ r) (h1 : r ≤ 1) :
    (10 ≤ (physStep a).x ∧ (physStep a).x ≤ 90
      ∧ 10 ≤ (physStep a).y ∧ (physStep a).y ≤ 90)
    ∧ (10 ≤ initCoord r ∧ initCoord r ≤ 90)
    ∧ (a.x + a.vx < 10 → (physStep a).vx = -a.vx)
    ∧ (a.x + a.vx > 90 → (physStep a).vx = -a.vx) := by
  refine ⟨⟨(bounceAxis_bounds _ _).1, (bounceAxis_bounds _ _).2,
    (bounceAxis_bounds _ _).1, (bounceAxis_bounds _ _).2⟩, ⟨?_, ?_⟩, ?_, ?_⟩
  · unfold initCoord
    nlinarith
  · unfold initCoord
    nlinarith
  · intro h
    show (bounceAxis (a.x + a.vx) a.vx).2 = -a.vx
    have e1 : bounceLow (a.x + a.vx) a.vx = (10, -a.vx) := by
      unfold bounceLow
      exact if_pos h
    unfold bounceAxis
    rw [e1]
    show (bounceHigh 10 (-a.vx)).2 = -a.vx
    unfold bounceHigh
    rw [if_neg (show ¬ ((10 : ℚ) > 100 - BOUNDS_PADDING) by
      unfold BOUNDS_PADDING; norm_num)]
  · intro h
    show (bounceAxis (a.x + a.vx) a.vx).2 = -a.vx
    have e1 : bounceLow (a.x + a.vx) a.vx = (a.x + a.vx, a.vx) := by
      unfold bounceLow
      exact if_neg (show ¬ (a.x + a.vx < BOUNDS_PADDING) by
        unfold BOUNDS_PADDING; linarith)
    unfold bounceAxis
    rw [e1]
    show (bounceHigh (a.x + a.vx) a.vx).2 = -a.vx
    unfold bounceHigh
    rw [if_pos (show a.x + a.vx > 100 - BOUNDS_PADDING by
      unfold BOUNDS_PADDING; linarith)]

/-- Witness for C10 at a concrete agent and random draw. -/
theorem agentStage_bounds_witness :
    (10 ≤ (physStep ⟨50, 50, 1, -2⟩).x ∧ (physStep ⟨50, 50, 1, -2⟩).x ≤ 90
      ∧ 10 ≤ (physStep ⟨50, 50, 1, -2⟩).y ∧ (physStep ⟨50, 50, 1, -2⟩).y ≤ 90)
    ∧ (10 ≤ initCoord (1/2) ∧ initCoord (1/2) ≤ 90)
    ∧ ((50 : ℚ) + 1 < 10 → (physStep ⟨50, 50, 1, -2⟩).vx = -1)
    ∧ ((50 : ℚ) + 1 > 90 → (physStep ⟨50, 50, 1, -2⟩).vx = -1) :=
  agentStage_bounds ⟨50, 50, 1, -2⟩ (1/2) (by norm_num) (by norm_num)

end ACEA
